import Mathlib

/-!
Verification of the sleeper-mcp-server core analytics, shallowly embedded in Lean.

Conventions used throughout:
* JavaScript strings are modelled as Lean `String` / `List Char`; the JS string
  operations the code relies on (`trim`, `split`, `includes`, lexicographic `<`,
  `parseInt`) are reimplemented structurally below.
* JS numbers holding fantasy points are modelled as `Int`; the code only
  adds, subtracts and compares point values, so any linearly ordered abelian
  group of values supports the statements below, and integer values keep
  kernel evaluation of concrete witnesses straightforward.
* `parseInt` is modelled for the non-negative base-10 inputs this code base
  passes it (season labels such as "2022"); a string with no leading digits
  yields `none`, mirroring `NaN`.
* JS objects used as string-keyed records are modelled as association lists in
  insertion order with overwrite-on-rewrite, mirroring `Record<string, T>`.
* Network fetches are modelled as oracle parameters (`String → Option _`),
  and recursion over the untrusted backward league chain uses explicit fuel.
-/

namespace SleeperMCP

/-! ## JS string primitives -/

/-- Characters removed by JS `String.prototype.trim`. -/
def jsTrim (cs : List Char) : List Char :=
  ((cs.dropWhile Char.isWhitespace).reverse.dropWhile Char.isWhitespace).reverse

/-- JS `String.prototype.split` with a single-character separator. -/
def splitOnChar (sep : Char) : List Char → List (List Char)
  | [] => [[]]
  | c :: rest =>
    match splitOnChar sep rest with
    | [] => [[]]
    | grp :: grps => if c = sep then [] :: grp :: grps else (c :: grp) :: grps

/-- Longest prefix of decimal digits. -/
def leadingDigits : List Char → List Char
  | [] => []
  | c :: cs => if c.isDigit then c :: leadingDigits cs else []

/-- Numeric value of one decimal digit character. -/
def digitToNat (c : Char) : Nat := c.toNat - 48

/-- Value of a decimal digit string, most significant digit first. -/
def digitsToNat (cs : List Char) : Nat :=
  cs.foldl (fun n c => 10 * n + digitToNat c) 0

/-- JS `parseInt` restricted to the non-negative base-10 inputs this code
passes it: skip whitespace, read leading digits, `none` for `NaN`. -/
def parseIntJS (cs : List Char) : Option Nat :=
  let ds := leadingDigits (jsTrim cs)
  if ds.isEmpty then none else some (digitsToNat ds)

/-- JS `<` on strings: lexicographic comparison by code unit. -/
def jsStrLt : List Char → List Char → Bool
  | _, [] => false
  | [], _ :: _ => true
  | a :: as, b :: bs => if a < b then true else if b < a then false else jsStrLt as bs

/-- Numeric sort key used by the year comparator, defaulting to 0 where the
JS comparator's behaviour on `NaN` is unspecified. -/
def numValD (s : String) : Nat := (parseIntJS s.data).getD 0

/-! ## YearRangeParser: `parseYearParameter` (src/unnamed/part_000, lines 623-656) -/

structure YearParseResult where
  requestedYears : List String
  yearsToProcess : List String
deriving DecidableEq, Repr

/-- Descending-by-`parseInt` sort of `[...availableYears].sort((a, b) => parseInt(b) - parseInt(a))`,
modelled as an insertion sort with respect to the comparator's ordering. -/
def sortYearsDesc (ys : List String) : List String :=
  List.insertionSort (fun a b => numValD b ≤ numValD a) ys

/-- The integers produced by `for (let y = start; y <= end; y++)`. -/
def rangeYears (a b : Nat) : List Nat := List.range' a (b + 1 - a)

/-- Shallow embedding of `parseYearParameter`.  The `!year` test in JS is true
for both `undefined` and the empty string, hence the extra `s = ""` branch. -/
def parseYearParameter (year : Option String) (availableYears : List String) :
    YearParseResult :=
  match year with
  | none => ⟨availableYears, sortYearsDesc availableYears⟩
  | some s =>
    if s = "" then ⟨availableYears, sortYearsDesc availableYears⟩
    else if s.data.contains '-' then
      match ((splitOnChar '-' s.data).get? 0).bind (fun t => parseIntJS (jsTrim t)),
            ((splitOnChar '-' s.data).get? 1).bind (fun t => parseIntJS (jsTrim t)) with
      | some a, some b =>
        let req := (rangeYears a b).map (fun y => toString y)
        ⟨req, req.filter (fun y => availableYears.contains y)⟩
      | _, _ => ⟨[], []⟩
    else if s.data.contains ',' then
      let req := (splitOnChar ',' s.data).map (fun t => (⟨jsTrim t⟩ : String))
      ⟨req, req.filter (fun y => availableYears.contains y)⟩
    else
      ⟨[s], if availableYears.contains s then [s] else []⟩

/-! ## Lemmas about the year parser -/

theorem sortYearsDesc_perm (ys : List String) : (sortYearsDesc ys).Perm ys :=
  List.perm_insertionSort _ ys

theorem sortYearsDesc_sorted (ys : List String) :
    (sortYearsDesc ys).Sorted (fun a b => numValD b ≤ numValD a) := by
  haveI : IsTotal String (fun a b => numValD b ≤ numValD a) :=
    ⟨fun a b => (Nat.le_total (numValD b) (numValD a))⟩
  haveI : IsTrans String (fun a b => numValD b ≤ numValD a) :=
    ⟨fun _ _ _ hab hbc => Nat.le_trans hbc hab⟩
  exact List.sorted_insertionSort _ ys

theorem contains_iff_mem (ys : List String) (y : String) :
    ys.contains y = true ↔ y ∈ ys := by
  simp [List.contains, List.elem_iff]

/-- C1: `parseYearParameter` satisfies the year-expression grammar: an absent
(or empty) expression returns all available seasons as requested and processes
them sorted descending by numeric value; a range expression "A-B" requests
every integer season in [A,B] (ascending) and processes the available ones in
that order; a comma list requests exactly the listed trimmed tokens in order
and processes the available ones in order; a single token requests itself and
processes it iff available; and in every case `yearsToProcess` is a subset of
both `requestedYears` and the available seasons. -/
theorem parseYearParameter_grammar (availableYears : List String) :
    (parseYearParameter none availableYears).requestedYears = availableYears
    ∧ (parseYearParameter none availableYears).yearsToProcess.Perm availableYears
    ∧ (parseYearParameter none availableYears).yearsToProcess.Sorted
        (fun a b => numValD b ≤ numValD a)
    ∧ (∀ (s : String) (a b : List Char) (rest : List (List Char)) (A B : Nat),
        s ≠ "" → s.data.contains '-' = true →
        splitOnChar '-' s.data = a :: b :: rest →
        parseIntJS (jsTrim a) = some A → parseIntJS (jsTrim b) = some B →
        parseYearParameter (some s) availableYears =
          ⟨(rangeYears A B).map (fun y => toString y),
           ((rangeYears A B).map (fun y => toString y)).filter
             (fun y => availableYears.contains y)⟩)
    ∧ (∀ s : String, s ≠ "" → s.data.contains '-' = false →
        s.data.contains ',' = true →
        parseYearParameter (some s) availableYears =
          ⟨(splitOnChar ',' s.data).map (fun t => (⟨jsTrim t⟩ : String)),
           ((splitOnChar ',' s.data).map (fun t => (⟨jsTrim t⟩ : String))).filter
             (fun y => availableYears.contains y)⟩)
    ∧ (∀ s : String, s ≠ "" → s.data.contains '-' = false →
        s.data.contains ',' = false →
        parseYearParameter (some s) availableYears =
          ⟨[s], if availableYears.contains s then [s] else []⟩)
    ∧ (∀ (year : Option String) (y : String),
        y ∈ (parseYearParameter year availableYears).yearsToProcess →
        y ∈ (parseYearParameter year availableYears).requestedYears ∧
          y ∈ availableYears) := by
  refine ⟨rfl, sortYearsDesc_perm availableYears, sortYearsDesc_sorted availableYears,
    ?_, ?_, ?_, ?_⟩
  · intro s a b rest A B hne hdash hsplit hA hB
    simp only [parseYearParameter, if_neg hne, hdash, if_pos rfl, hsplit,
      List.get?, Option.bind, hA, hB]
    simp
  · intro s hne hdash hcomma
    simp only [parseYearParameter, if_neg hne, hdash, hcomma]
    simp
  · intro s hne hdash hcomma
    simp only [parseYearParameter, if_neg hne, hdash, hcomma]
    simp
  · intro year y hy
    have hcases :
        ((parseYearParameter year availableYears).requestedYears = availableYears ∧
          (parseYearParameter year availableYears).yearsToProcess.Perm availableYears)
        ∨ (parseYearParameter year availableYears).yearsToProcess =
            (parseYearParameter year availableYears).requestedYears.filter
              (fun t => availableYears.contains t) := by
      rcases year with _ | s
      · exact Or.inl ⟨rfl, sortYearsDesc_perm availableYears⟩
      · by_cases hs : s = ""
        · subst hs
          exact Or.inl ⟨rfl, sortYearsDesc_perm availableYears⟩
        · refine Or.inr ?_
          by_cases hdash : s.data.contains '-'
          · simp only [parseYearParameter, if_neg hs, hdash, if_pos rfl]
            cases hA :
                ((splitOnChar '-' s.data).get? 0).bind (fun t => parseIntJS (jsTrim t)) <;>
              cases hB :
                  ((splitOnChar '-' s.data).get? 1).bind (fun t => parseIntJS (jsTrim t)) <;>
              simp
          · by_cases hcomma : s.data.contains ','
            · simp only [parseYearParameter, if_neg hs, hdash, hcomma]
              simp
            · simp only [parseYearParameter, if_neg hs, hdash, hcomma]
              by_cases hav : s ∈ availableYears <;> simp [hav]
    rcases hcases with ⟨hreq, hperm⟩ | hfilter
    · have hmem : y ∈ availableYears := hperm.mem_iff.mp hy
      exact ⟨by rw [hreq]; exact hmem, hmem⟩
    · rw [hfilter] at hy
      have := List.mem_filter.mp hy
      exact ⟨this.1, (contains_iff_mem availableYears y).mp this.2⟩

/-- C1 witness: the range clause of the grammar instantiated at the concrete
expression "2022-2024" against availability {2021, 2022, 2024}. -/
theorem parseYearParameter_grammar_witness :
    parseYearParameter (some "2022-2024") ["2021", "2022", "2024"] =
      ⟨(rangeYears 2022 2024).map (fun y => toString y),
       ((rangeYears 2022 2024).map (fun y => toString y)).filter
         (fun y => (["2021", "2022", "2024"] : List String).contains y)⟩ :=
  (parseYearParameter_grammar ["2021", "2022", "2024"]).2.2.2.1
    "2022-2024" "2022".data "2024".data [] 2022 2024 (by decide) (by decide)
    (by decide) (by decide) (by decide)

/-! ## Digit-string arithmetic (connecting JS string comparison to season numbers) -/

theorem char_lt_iff_toNat (a b : Char) : a < b ↔ a.toNat < b.toNat := by
  rw [Char.lt_iff_val_lt_val, UInt32.lt_def, BitVec.lt_def]
  exact Iff.rfl

theorem isDigit_toNat_bounds {c : Char} (h : c.isDigit = true) :
    48 ≤ c.toNat ∧ c.toNat ≤ 57 := by
  simp only [Char.isDigit, Bool.and_eq_true, decide_eq_true_eq] at h
  obtain ⟨h1, h2⟩ := h
  have h1' : ((48 : UInt32)).toBitVec.toNat ≤ (c.val).toBitVec.toNat :=
    BitVec.le_def.mp (UInt32.le_def.mp h1)
  have h2' : (c.val).toBitVec.toNat ≤ ((57 : UInt32)).toBitVec.toNat :=
    BitVec.le_def.mp (UInt32.le_def.mp h2)
  have e48 : ((48 : UInt32)).toBitVec.toNat = 48 := by decide
  have e57 : ((57 : UInt32)).toBitVec.toNat = 57 := by decide
  have ec : c.toNat = (c.val).toBitVec.toNat := rfl
  omega

theorem digit_lt_iff {a b : Char} (ha : a.isDigit = true) (hb : b.isDigit = true) :
    a < b ↔ digitToNat a < digitToNat b := by
  obtain ⟨ha1, _⟩ := isDigit_toNat_bounds ha
  obtain ⟨hb1, _⟩ := isDigit_toNat_bounds hb
  rw [char_lt_iff_toNat]
  unfold digitToNat
  omega

theorem digitsToNat_foldl_shift (cs : List Char) :
    ∀ n : Nat, cs.foldl (fun n c => 10 * n + digitToNat c) n =
      n * 10 ^ cs.length + cs.foldl (fun n c => 10 * n + digitToNat c) 0 := by
  induction cs with
  | nil => intro n; simp
  | cons c cs ih =>
    intro n
    simp only [List.foldl_cons, List.length_cons]
    rw [ih (10 * n + digitToNat c), ih (10 * 0 + digitToNat c)]
    ring

theorem digitsToNat_cons (c : Char) (cs : List Char) :
    digitsToNat (c :: cs) = digitToNat c * 10 ^ cs.length + digitsToNat cs := by
  unfold digitsToNat
  simp only [List.foldl_cons]
  rw [digitsToNat_foldl_shift cs (10 * 0 + digitToNat c)]
  ring

theorem digitsToNat_lt_pow (cs : List Char) (h : ∀ c ∈ cs, c.isDigit = true) :
    digitsToNat cs < 10 ^ cs.length := by
  induction cs with
  | nil => simp [digitsToNat]
  | cons c cs ih =>
    have hc := isDigit_toNat_bounds (h c (List.mem_cons_self c cs))
    have hd : digitToNat c ≤ 9 := by unfold digitToNat; omega
    have hrest : digitsToNat cs < 10 ^ cs.length :=
      ih (fun x hx => h x (List.mem_cons_of_mem c hx))
    rw [digitsToNat_cons, List.length_cons]
    calc digitToNat c * 10 ^ cs.length + digitsToNat cs
        < digitToNat c * 10 ^ cs.length + 10 ^ cs.length := by omega
      _ = (digitToNat c + 1) * 10 ^ cs.length := by ring
      _ ≤ 10 * 10 ^ cs.length := Nat.mul_le_mul_right _ (by omega)
      _ = 10 ^ (cs.length + 1) := by ring

theorem jsStrLt_iff_digitsToNat :
    ∀ (as bs : List Char), as.length = bs.length →
      (∀ c ∈ as, c.isDigit = true) → (∀ c ∈ bs, c.isDigit = true) →
      (jsStrLt as bs = true ↔ digitsToNat as < digitsToNat bs) := by
  intro as
  induction as with
  | nil =>
    intro bs hlen _ _
    cases bs with
    | nil => simp [jsStrLt, digitsToNat]
    | cons b bs => simp at hlen
  | cons a as ih =>
    intro bs hlen hda hdb
    cases bs with
    | nil => simp at hlen
    | cons b bs =>
      have hlen' : as.length = bs.length := by simpa using hlen
      have hda' : ∀ c ∈ as, c.isDigit = true := fun c hc => hda c (List.mem_cons_of_mem a hc)
      have hdb' : ∀ c ∈ bs, c.isDigit = true := fun c hc => hdb c (List.mem_cons_of_mem b hc)
      have hadig : a.isDigit = true := hda a (List.mem_cons_self a as)
      have hbdig : b.isDigit = true := hdb b (List.mem_cons_self b bs)
      have hbounda : digitsToNat as < 10 ^ as.length := digitsToNat_lt_pow as hda'
      have hboundb : digitsToNat bs < 10 ^ bs.length := digitsToNat_lt_pow bs hdb'
      rw [digitsToNat_cons, digitsToNat_cons, hlen']
      by_cases hab : a < b
      · have hd : digitToNat a < digitToNat b := (digit_lt_iff hadig hbdig).mp hab
        simp only [jsStrLt, if_pos hab, true_iff]
        calc digitToNat a * 10 ^ bs.length + digitsToNat as
            < digitToNat a * 10 ^ bs.length + 10 ^ bs.length := by
              rw [← hlen']; omega
          _ = (digitToNat a + 1) * 10 ^ bs.length := by ring
          _ ≤ digitToNat b * 10 ^ bs.length := Nat.mul_le_mul_right _ (by omega)
          _ ≤ digitToNat b * 10 ^ bs.length + digitsToNat bs := Nat.le_add_right _ _
      · by_cases hba : b < a
        · have hd : digitToNat b < digitToNat a := (digit_lt_iff hbdig hadig).mp hba
          simp only [jsStrLt, if_neg hab, if_pos hba, Bool.false_eq_true, false_iff,
            not_lt]
          exact le_of_lt
            (calc digitToNat b * 10 ^ bs.length + digitsToNat bs
                < digitToNat b * 10 ^ bs.length + 10 ^ bs.length := by omega
              _ = (digitToNat b + 1) * 10 ^ bs.length := by ring
              _ ≤ digitToNat a * 10 ^ bs.length := Nat.mul_le_mul_right _ (by omega)
              _ ≤ digitToNat a * 10 ^ bs.length + digitsToNat as := Nat.le_add_right _ _)
        · have heq : digitToNat a = digitToNat b := by
            have h1 := (digit_lt_iff hadig hbdig).not.mp hab
            have h2 := (digit_lt_iff hbdig hadig).not.mp hba
            omega
          simp only [jsStrLt, if_neg hab, if_neg hba]
          rw [ih bs hlen' hda' hdb', heq]
          omega

/-! ## MatchupResolver status derivation (src/src/utils/api.ts, lines 377-399) -/

inductive MatchupStatus where
  | completed
  | in_progress
  | upcoming
deriving DecidableEq, Repr

/-- Shallow embedding of the status derivation inside `fetchMatchup`: the JS
`matchupYear < currentSeason` / `matchupYear > currentSeason` comparisons are
lexicographic string comparisons, modelled by `jsStrLt`. -/
def deriveMatchupStatus (matchupYear currentSeason : String)
    (week currentWeek : Nat) : MatchupStatus :=
  if jsStrLt matchupYear.data currentSeason.data then .completed
  else if jsStrLt currentSeason.data matchupYear.data then .upcoming
  else if week < currentWeek then .completed
  else if week = currentWeek then .in_progress
  else .upcoming

/-- Numeric value of a season label. -/
def seasonVal (s : String) : Nat := digitsToNat s.data

/-- C2: for four-digit season labels, the matchup status is `completed` for any
week of a numerically earlier season and `upcoming` for any week of a later
season; within the current season it is `completed` before the current week,
`in_progress` at the current week and `upcoming` after it. -/
theorem fetchMatchup_status_spec (sy cy : String) (week currentWeek : Nat)
    (hlen1 : sy.data.length = 4) (hlen2 : cy.data.length = 4)
    (hd1 : ∀ c ∈ sy.data, c.isDigit = true) (hd2 : ∀ c ∈ cy.data, c.isDigit = true) :
    (seasonVal sy < seasonVal cy →
      deriveMatchupStatus sy cy week currentWeek = .completed)
    ∧ (seasonVal cy < seasonVal sy →
      deriveMatchupStatus sy cy week currentWeek = .upcoming)
    ∧ (seasonVal sy = seasonVal cy →
      (week < currentWeek → deriveMatchupStatus sy cy week currentWeek = .completed)
      ∧ (week = currentWeek → deriveMatchupStatus sy cy week currentWeek = .in_progress)
      ∧ (currentWeek < week → deriveMatchupStatus sy cy week currentWeek = .upcoming)) := by
  have hlen : sy.data.length = cy.data.length := by rw [hlen1, hlen2]
  have hiff1 : jsStrLt sy.data cy.data = true ↔ seasonVal sy < seasonVal cy :=
    jsStrLt_iff_digitsToNat sy.data cy.data hlen hd1 hd2
  have hiff2 : jsStrLt cy.data sy.data = true ↔ seasonVal cy < seasonVal sy :=
    jsStrLt_iff_digitsToNat cy.data sy.data hlen.symm hd2 hd1
  refine ⟨?_, ?_, ?_⟩
  · intro hlt
    have h1 : jsStrLt sy.data cy.data = true := hiff1.mpr hlt
    simp [deriveMatchupStatus, h1]
  · intro hlt
    have h1 : jsStrLt sy.data cy.data = false := by
      rw [← Bool.not_eq_true, hiff1]
      omega
    have h2 : jsStrLt cy.data sy.data = true := hiff2.mpr hlt
    simp [deriveMatchupStatus, h1, h2]
  · intro heq
    have h1 : jsStrLt sy.data cy.data = false := by
      rw [← Bool.not_eq_true, hiff1]
      omega
    have h2 : jsStrLt cy.data sy.data = false := by
      rw [← Bool.not_eq_true, hiff2]
      omega
    refine ⟨?_, ?_, ?_⟩
    · intro hw
      simp [deriveMatchupStatus, h1, h2, hw]
    · intro hw
      simp [deriveMatchupStatus, h1, h2, hw]
    · intro hw
      have hw1 : ¬ week < currentWeek := by omega
      have hw2 : ¬ week = currentWeek := by omega
      simp [deriveMatchupStatus, h1, h2, hw1, hw2]

/-- C2 witness: the concrete cases of §8 of the spec, with current season
"2024" and current week 8. -/
theorem fetchMatchup_status_spec_witness :
    deriveMatchupStatus "2023" "2024" 17 8 = .completed
    ∧ deriveMatchupStatus "2025" "2024" 1 8 = .upcoming
    ∧ deriveMatchupStatus "2024" "2024" 5 8 = .completed
    ∧ deriveMatchupStatus "2024" "2024" 8 8 = .in_progress
    ∧ deriveMatchupStatus "2024" "2024" 10 8 = .upcoming := by
  have h1 := fetchMatchup_status_spec "2023" "2024" 17 8 (by decide) (by decide)
    (by decide) (by decide)
  have h2 := fetchMatchup_status_spec "2025" "2024" 1 8 (by decide) (by decide)
    (by decide) (by decide)
  have h3 := fetchMatchup_status_spec "2024" "2024" 5 8 (by decide) (by decide)
    (by decide) (by decide)
  have h4 := fetchMatchup_status_spec "2024" "2024" 8 8 (by decide) (by decide)
    (by decide) (by decide)
  have h5 := fetchMatchup_status_spec "2024" "2024" 10 8 (by decide) (by decide)
    (by decide) (by decide)
  exact ⟨h1.1 (by decide), h2.2.1 (by decide), (h3.2.2 (by decide)).1 (by decide),
    (h4.2.2 (by decide)).2.1 (by decide), (h5.2.2 (by decide)).2.2 (by decide)⟩

/-! ## LineupAnalyzer: `analyzeLineup` (src/src/utils/api.ts, lines 587-618) -/

structure MatchupPlayerDetail where
  playerId : String
  name : String
  team : String
  position : String
  rosterSlot : String
  points : Int
deriving DecidableEq, Repr, Inhabited

structure LineupAnalysis where
  starters : List MatchupPlayerDetail
  bench : List MatchupPlayerDetail
  worstStarter : MatchupPlayerDetail
  outperformingBench : List MatchupPlayerDetail
  missedPoints : Int
  optimalChoices : Bool
deriving DecidableEq, Repr

/-- The JS `starters.sort((a, b) => a.points - b.points)` (ascending by points),
modelled as an insertion sort with respect to the comparator's ordering. -/
def sortByPointsAsc (l : List MatchupPlayerDetail) : List MatchupPlayerDetail :=
  List.insertionSort (fun a b => a.points ≤ b.points) l

/-- The JS `bench.sort((a, b) => b.points - a.points)` (descending by points). -/
def sortByPointsDesc (l : List MatchupPlayerDetail) : List MatchupPlayerDetail :=
  List.insertionSort (fun a b => b.points ≤ a.points) l

/-- Shallow embedding of `analyzeLineup`.  `none` models the JS `TypeError`
thrown when `starters` is empty (`starters[0]` is `undefined` and its `.points`
is dereferenced). -/
def analyzeLineup (starters bench : List MatchupPlayerDetail) :
    Option LineupAnalysis :=
  let sortedBench := sortByPointsDesc bench
  match sortByPointsAsc starters with
  | [] => none
  | worstStarter :: rest =>
    let outperformingBench :=
      sortedBench.filter (fun b => worstStarter.points < b.points)
    let missedPoints :=
      outperformingBench.foldl (fun total p => total + (p.points - worstStarter.points)) 0
    some ⟨worstStarter :: rest, sortedBench, worstStarter, outperformingBench,
      missedPoints, outperformingBench.length == 0⟩

theorem sortByPointsAsc_perm (l : List MatchupPlayerDetail) :
    (sortByPointsAsc l).Perm l :=
  List.perm_insertionSort _ l

theorem sortByPointsDesc_perm (l : List MatchupPlayerDetail) :
    (sortByPointsDesc l).Perm l :=
  List.perm_insertionSort _ l

theorem sortByPointsAsc_sorted (l : List MatchupPlayerDetail) :
    (sortByPointsAsc l).Sorted (fun a b => a.points ≤ b.points) := by
  haveI : IsTotal MatchupPlayerDetail (fun a b => a.points ≤ b.points) :=
    ⟨fun a b => le_total a.points b.points⟩
  haveI : IsTrans MatchupPlayerDetail (fun a b => a.points ≤ b.points) :=
    ⟨fun _ _ _ hab hbc => le_trans hab hbc⟩
  exact List.sorted_insertionSort _ l

theorem foldl_add_eq_sum (f : MatchupPlayerDetail → Int) :
    ∀ (l : List MatchupPlayerDetail) (init : Int),
      l.foldl (fun total p => total + f p) init = init + (l.map f).sum := by
  intro l
  induction l with
  | nil => intro init; simp
  | cons p l ih =>
    intro init
    simp only [List.foldl_cons, List.map_cons, List.sum_cons]
    rw [ih (init + f p)]
    ring

/-- C3: for a side with non-empty starters, `analyzeLineup` returns a worst
starter of minimal points among the starters, an `outperformingBench` that is
exactly the bench players strictly outscoring the worst starter, a
`missedPoints` equal to the sum of their margins over the worst starter, and
`optimalChoices` true iff no bench player outscores the worst starter; hence
`missedPoints = 0` under optimal choices, and a bench player outscoring every
starter forces `optimalChoices = false`. -/
theorem analyzeLineup_spec (starters bench : List MatchupPlayerDetail)
    (a : LineupAnalysis) (h : analyzeLineup starters bench = some a) :
    (a.worstStarter ∈ starters ∧ ∀ s ∈ starters, a.worstStarter.points ≤ s.points)
    ∧ a.outperformingBench.Perm
        (bench.filter (fun b => a.worstStarter.points < b.points))
    ∧ a.missedPoints =
        (a.outperformingBench.map (fun p => p.points - a.worstStarter.points)).sum
    ∧ (a.optimalChoices = true ↔ a.outperformingBench = [])
    ∧ (a.optimalChoices = true → a.missedPoints = 0)
    ∧ (∀ b ∈ bench, (∀ s ∈ starters, s.points < b.points) →
        a.optimalChoices = false) := by
  unfold analyzeLineup at h
  cases hsort : sortByPointsAsc starters with
  | nil => rw [hsort] at h; simp at h
  | cons w rest =>
    rw [hsort] at h
    simp only [Option.some.injEq] at h
    subst h
    have hperm : (w :: rest).Perm starters := hsort ▸ sortByPointsAsc_perm starters
    have hsorted : (w :: rest).Sorted (fun a b => a.points ≤ b.points) :=
      hsort ▸ sortByPointsAsc_sorted starters
    have hwmem : w ∈ starters := hperm.mem_iff.mp (List.mem_cons_self w rest)
    have hwmin : ∀ s ∈ starters, w.points ≤ s.points := by
      intro s hs
      have hs' : s ∈ w :: rest := hperm.mem_iff.mpr hs
      rcases List.mem_cons.mp hs' with hseq | hsrest
      · subst hseq; exact le_refl _
      · exact (List.sorted_cons.mp hsorted).1 s hsrest
    have hbperm : (sortByPointsDesc bench).Perm bench := sortByPointsDesc_perm bench
    have hfperm :
        ((sortByPointsDesc bench).filter (fun b => w.points < b.points)).Perm
          (bench.filter (fun b => w.points < b.points)) := hbperm.filter _
    refine ⟨⟨hwmem, hwmin⟩, hfperm, ?_, ?_, ?_, ?_⟩
    · rw [foldl_add_eq_sum]
      simp
    · simp [List.length_eq_zero]
    · intro hopt
      have hempty : (sortByPointsDesc bench).filter (fun b => w.points < b.points) = [] := by
        simpa [List.length_eq_zero] using hopt
      simp [hempty, foldl_add_eq_sum]
    · intro b hb hball
      have hwlt : w.points < b.points := hball w hwmem
      have hbmem : b ∈ (sortByPointsDesc bench).filter (fun t => w.points < t.points) := by
        rw [List.mem_filter]
        exact ⟨hbperm.mem_iff.mpr hb, by simpa using hwlt⟩
      have hne : (sortByPointsDesc bench).filter (fun t => w.points < t.points) ≠ [] := by
        intro hcontra
        rw [hcontra] at hbmem
        simp at hbmem
      simp only [beq_iff_eq]
      simpa [List.length_eq_zero] using hne

/-- Concrete lineup side used by the C3 witness: two starters scoring 10 and 8,
one bench player scoring 12. -/
def exampleStarters : List MatchupPlayerDetail :=
  [⟨"1", "A", "T1", "QB", "QB", 10⟩, ⟨"2", "B", "T2", "RB", "RB", 8⟩]

def exampleBench : List MatchupPlayerDetail :=
  [⟨"3", "C", "T3", "WR", "BN", 12⟩]

def exampleAnalysis : LineupAnalysis :=
  ⟨[⟨"2", "B", "T2", "RB", "RB", 8⟩, ⟨"1", "A", "T1", "QB", "QB", 10⟩],
   [⟨"3", "C", "T3", "WR", "BN", 12⟩],
   ⟨"2", "B", "T2", "RB", "RB", 8⟩,
   [⟨"3", "C", "T3", "WR", "BN", 12⟩], 4, false⟩

/-- C3 witness: on the concrete side the bench player outscores every starter,
so the analysis reports non-optimal choices and 4 missed points. -/
theorem analyzeLineup_spec_witness :
    exampleAnalysis.optimalChoices = false ∧ exampleAnalysis.missedPoints = 4 := by
  have h := analyzeLineup_spec exampleStarters exampleBench exampleAnalysis (by decide)
  exact ⟨h.2.2.2.2.2 ⟨"3", "C", "T3", "WR", "BN", 12⟩ (by decide) (by decide), by decide⟩

/-! ## Matchup enhancement (src/unnamed/part_000, lines 692-832) -/

structure PlayerInfo where
  first_name : String
  last_name : String
  team : String
  fantasy_positions : List String
deriving DecidableEq, Repr

/-- The static player directory, id to detail; `Record<string, T>` modelled as
an association list. -/
abbrev PlayerMap := List (String × PlayerInfo)

def lookupPlayer (pm : PlayerMap) (pid : String) : Option PlayerInfo :=
  (pm.find? (fun kv => kv.1 == pid)).map (fun kv => kv.2)

/-- JS `x || fallback` for strings: the empty string is falsy. -/
def orElseStr (s fallback : String) : String := if s = "" then fallback else s

/-- JS `Array.prototype.join`. -/
def joinSep (sep : String) : List String → String
  | [] => ""
  | [s] => s
  | s :: rest => s ++ sep ++ joinSep sep rest

/-- Shallow embedding of `mapPlayerDetails` in the matchup-context case (the
context is always supplied by `enhanceMatchupWithPlayerDetails`); absent JS
fields are modelled as the empty string / empty list. -/
def mapPlayerDetails (pid : String) (playerMap : PlayerMap)
    (rosterSlot : String) (points : Int) : MatchupPlayerDetail :=
  if pid = "0" then
    let slotName := orElseStr rosterSlot "UNKNOWN"
    ⟨pid, "[No Player Started]", "N/A", slotName, slotName, 0⟩
  else
    match lookupPlayer playerMap pid with
    | none =>
      ⟨pid, "Unknown Player (" ++ pid ++ ")", "UNKNOWN", "UNKNOWN",
        orElseStr rosterSlot "UNKNOWN", points⟩
    | some info =>
      let position :=
        match info.fantasy_positions with
        | [p] => p
        | ps => orElseStr (joinSep ", " ps) "UNKNOWN"
      ⟨pid,
        orElseStr info.first_name "Unknown" ++ " " ++ orElseStr info.last_name "Player",
        orElseStr info.team "UNKNOWN", position,
        orElseStr rosterSlot "UNKNOWN", points⟩

structure Matchup where
  roster_id : Nat
  matchup_id : Nat
  points : Int
  custom_points : Option Int
  starters : List String
  starters_points : List Int
  players : List String
  players_points : List (String × Int)
deriving DecidableEq, Repr

structure EnhancedMatchup where
  roster_id : Nat
  matchup_id : Nat
  points : Int
  custom_points : Option Int
  starters : List MatchupPlayerDetail
  bench : List MatchupPlayerDetail
deriving DecidableEq, Repr

def lookupPoints (pp : List (String × Int)) (pid : String) : Option Int :=
  (pp.find? (fun kv => kv.1 == pid)).map (fun kv => kv.2)

/-- Shallow embedding of `enhanceMatchupWithPlayerDetails`. -/
def enhanceMatchupWithPlayerDetails (matchup : Matchup) (playerData : PlayerMap)
    (rosterPositions : List String) : EnhancedMatchup :=
  let starters := matchup.starters
  let starterPositions := rosterPositions.take starters.length
  let enhancedStarters := starters.enum.map (fun ie =>
    mapPlayerDetails ie.2 playerData
      (match starterPositions.get? ie.1 with
        | some p => orElseStr p "UNKNOWN"
        | none => "UNKNOWN")
      ((matchup.starters_points.get? ie.1).getD 0))
  let benchPlayerIds := matchup.players.filter (fun id => ! starters.contains id)
  let enhancedBench := benchPlayerIds.map (fun pid =>
    mapPlayerDetails pid playerData "BN" ((lookupPoints matchup.players_points pid).getD 0))
  ⟨matchup.roster_id, matchup.matchup_id, matchup.points, matchup.custom_points,
    enhancedStarters, enhancedBench⟩

theorem mapPlayerDetails_playerId (pid : String) (pm : PlayerMap)
    (slot : String) (pts : Int) :
    (mapPlayerDetails pid pm slot pts).playerId = pid := by
  unfold mapPlayerDetails
  by_cases h : pid = "0"
  · simp [h]
  · simp only [if_neg h]
    cases lookupPlayer pm pid <;> simp

theorem mapPlayerDetails_rosterSlot (pid : String) (pm : PlayerMap)
    (slot : String) (pts : Int) :
    (mapPlayerDetails pid pm slot pts).rosterSlot = orElseStr slot "UNKNOWN" := by
  unfold mapPlayerDetails
  by_cases h : pid = "0"
  · simp [h]
  · simp only [if_neg h]
    cases lookupPlayer pm pid <;> simp

/-- C4: the enhanced side preserves matchup structure: the starters carry the
matchup starter ids in order; the i-th starter carries the i-th configured
roster position whenever that position exists and is non-empty; and the bench
is exactly the rostered players minus the starters (both as the literal
filtered list and as a set-membership characterisation). -/
theorem enhanceMatchup_starters_eq (matchup : Matchup) (pd : PlayerMap)
    (rp : List String) :
    (enhanceMatchupWithPlayerDetails matchup pd rp).starters =
      matchup.starters.enum.map (fun ie => mapPlayerDetails ie.2 pd
        (match (rp.take matchup.starters.length).get? ie.1 with
          | some p => orElseStr p "UNKNOWN"
          | none => "UNKNOWN")
        ((matchup.starters_points.get? ie.1).getD 0)) := rfl

theorem enhanceMatchup_bench_eq (matchup : Matchup) (pd : PlayerMap)
    (rp : List String) :
    (enhanceMatchupWithPlayerDetails matchup pd rp).bench =
      (matchup.players.filter (fun id => ! matchup.starters.contains id)).map
        (fun pid => mapPlayerDetails pid pd "BN"
          ((lookupPoints matchup.players_points pid).getD 0)) := rfl

/-- C4: the enhanced side preserves matchup structure: the starters carry the
matchup starter ids in order; the i-th starter carries the i-th configured
roster position whenever that position exists and is non-empty; and the bench
is exactly the rostered players minus the starters (both as the literal
filtered list and as a set-membership characterisation). -/
theorem enhanceMatchup_invariants (matchup : Matchup) (playerData : PlayerMap)
    (rosterPositions : List String) :
    ((enhanceMatchupWithPlayerDetails matchup playerData rosterPositions).starters.map
        (fun p => p.playerId) = matchup.starters)
    ∧ (∀ i : Nat, i < matchup.starters.length → i < rosterPositions.length →
        rosterPositions.getD i "" ≠ "" →
        ((enhanceMatchupWithPlayerDetails matchup playerData rosterPositions).starters.getD
            i default).rosterSlot = rosterPositions.getD i "")
    ∧ ((enhanceMatchupWithPlayerDetails matchup playerData rosterPositions).bench.map
        (fun p => p.playerId) =
          matchup.players.filter (fun id => ! matchup.starters.contains id))
    ∧ (∀ pid : String,
        pid ∈ (enhanceMatchupWithPlayerDetails matchup playerData rosterPositions).bench.map
            (fun p => p.playerId) ↔
          (pid ∈ matchup.players ∧ ¬ pid ∈ matchup.starters)) := by
  have hbench :
      (enhanceMatchupWithPlayerDetails matchup playerData rosterPositions).bench.map
        (fun p => p.playerId) =
        matchup.players.filter (fun id => ! matchup.starters.contains id) := by
    rw [enhanceMatchup_bench_eq, List.map_map]
    have hcong :
        List.map
          ((fun p => p.playerId) ∘ fun pid => mapPlayerDetails pid playerData "BN"
            ((lookupPoints matchup.players_points pid).getD 0))
          (matchup.players.filter (fun id => ! matchup.starters.contains id)) =
        List.map (fun pid => pid)
          (matchup.players.filter (fun id => ! matchup.starters.contains id)) :=
      List.map_congr_left
        (fun pid _ => mapPlayerDetails_playerId pid playerData _ _)
    rw [hcong]
    exact List.map_id' _
  refine ⟨?_, ?_, hbench, ?_⟩
  · rw [enhanceMatchup_starters_eq, List.map_map]
    have hcong :
        List.map
          ((fun p => p.playerId) ∘ fun ie => mapPlayerDetails ie.2 playerData
            (match (rosterPositions.take matchup.starters.length).get? ie.1 with
              | some p => orElseStr p "UNKNOWN"
              | none => "UNKNOWN")
            ((matchup.starters_points.get? ie.1).getD 0))
          matchup.starters.enum =
        List.map (fun ie => ie.2) matchup.starters.enum :=
      List.map_congr_left
        (fun ie _ => mapPlayerDetails_playerId ie.2 playerData _ _)
    rw [hcong]
    exact List.enumFrom_map_snd 0 matchup.starters
  · intro i hi hirp hne
    rw [List.getD_eq_get?, enhanceMatchup_starters_eq, List.get?_map, List.get?_enum]
    cases hst : matchup.starters.get? i with
    | none =>
      exfalso
      exact absurd hi (Nat.not_lt.mpr (List.get?_eq_none.mp hst))
    | some pid =>
      simp only [Option.map_some', Option.getD_some]
      rw [mapPlayerDetails_rosterSlot]
      have htake : (rosterPositions.take matchup.starters.length).get? i =
          rosterPositions.get? i := List.get?_take hi
      cases hrp : rosterPositions.get? i with
      | none =>
        exfalso
        exact absurd hirp (Nat.not_lt.mpr (List.get?_eq_none.mp hrp))
      | some p =>
        have hpd : rosterPositions.getD i "" = p := by
          rw [List.getD_eq_get?, hrp]
          rfl
        rw [hpd] at hne ⊢
        simp only [htake, hrp]
        simp [orElseStr, hne]
  · intro pid
    rw [hbench]
    simp only [List.mem_filter, Bool.not_eq_eq_eq_not, Bool.not_true]
    constructor
    · intro hmem
      refine ⟨hmem.1, ?_⟩
      intro hcontra
      have hc := (contains_iff_mem matchup.starters pid).mpr hcontra
      rw [hmem.2] at hc
      exact Bool.false_ne_true hc
    · intro hmem
      refine ⟨hmem.1, ?_⟩
      cases hc : matchup.starters.contains pid
      · rfl
      · exact absurd ((contains_iff_mem matchup.starters pid).mp hc) hmem.2

/-- Concrete matchup used by the C4 witness. -/
def exampleMatchup : Matchup :=
  ⟨1, 7, 20, none, ["10", "20"], [11, 9], ["10", "20", "30"],
   [("10", 11), ("20", 9), ("30", 5)]⟩

def examplePlayerMap : PlayerMap :=
  [("10", ⟨"Pat", "Q", "KC", ["QB"]⟩), ("20", ⟨"Raheem", "R", "TB", ["RB"]⟩),
   ("30", ⟨"Wes", "W", "SF", ["WR"]⟩)]

/-- C4 witness: on the concrete matchup, starter 0 carries the first configured
slot "QB" and the non-starting rostered player "30" appears on the bench. -/
theorem enhanceMatchup_invariants_witness :
    ((enhanceMatchupWithPlayerDetails exampleMatchup examplePlayerMap
        ["QB", "RB"]).starters.getD 0 default).rosterSlot = "QB"
    ∧ "30" ∈ (enhanceMatchupWithPlayerDetails exampleMatchup examplePlayerMap
        ["QB", "RB"]).bench.map (fun p => p.playerId) := by
  have h := enhanceMatchup_invariants exampleMatchup examplePlayerMap ["QB", "RB"]
  constructor
  · have h1 := h.2.1 0 (by decide) (by decide) (by decide)
    rw [h1]
    decide
  · exact (h.2.2.2 "30").mpr ⟨by decide, by decide⟩

/-! ## LeagueChainResolver (src/src/utils/api.ts, lines 287-333) -/

inductive Status where
  | pre_draft
  | drafting
  | in_season
  | complete
deriving DecidableEq, Repr

structure LeagueSnapshot where
  league_id : String
  name : String
  season : String
  status : Status
  previous_league_id : Option String
deriving DecidableEq, Repr

structure LeagueHistoryEntry where
  leagueId : String
  leagueName : String
  leagueStatus : Status
deriving DecidableEq, Repr

/-- A `Record<string, LeagueHistoryEntry>` in insertion order. -/
abbrev HistMap := List (String × LeagueHistoryEntry)

/-- JS `map[key] = value`: overwrite the existing binding in place, otherwise
append. -/
def recordSet : HistMap → String → LeagueHistoryEntry → HistMap
  | [], k, v => [(k, v)]
  | kv :: rest, k, v =>
    if kv.1 = k then (k, v) :: rest else kv :: recordSet rest k v

def hasKey (m : HistMap) (k : String) : Bool := m.any (fun kv => kv.1 == k)

/-- JS truthiness of `previous_league_id` (`null` and `""` are falsy). -/
def truthyId : Option String → Option String
  | none => none
  | some s => if s = "" then none else some s

/-- Shallow embedding of `chainLeagueHistory`.  `env` is the oracle standing
for `fetchLeagueData` by league id; `fuel` bounds the recursion depth, since
the JS source recurses over the untrusted backward chain with no cycle guard
(the claims below concern walks that complete within fuel).  The source's
unused `username`/`leagueName` parameters are dropped. -/
def chainLeagueHistory (env : String → Option LeagueSnapshot) :
    Nat → LeagueSnapshot → HistMap → Bool × HistMap
  | 0, _, m => (false, m)
  | fuel + 1, l, m =>
    let m' := recordSet m l.season ⟨l.league_id, l.name, l.status⟩
    match truthyId l.previous_league_id with
    | none => (true, m')
    | some pid =>
      match env pid with
      | none => (false, m')
      | some l2 => chainLeagueHistory env fuel l2 m'

/-- The season labels the walk records, in recording order; the list stops at
an absent pointer, a failed fetch, or fuel exhaustion. -/
def chainSeasons (env : String → Option LeagueSnapshot) :
    Nat → LeagueSnapshot → List String
  | 0, _ => []
  | fuel + 1, l =>
    l.season ::
      (match truthyId l.previous_league_id with
       | none => []
       | some pid =>
         match env pid with
         | none => []
         | some l2 => chainSeasons env fuel l2)

/-- The seasons reachable from a snapshot by following `previous_league_id`
until it is absent: `some` exactly when the whole backward chain resolves
within fuel with every fetch succeeding. -/
def reachableSeasons (env : String → Option LeagueSnapshot) :
    Nat → LeagueSnapshot → Option (List String)
  | 0, _ => none
  | fuel + 1, l =>
    match truthyId l.previous_league_id with
    | none => some [l.season]
    | some pid =>
      match env pid with
      | none => none
      | some l2 => (reachableSeasons env fuel l2).map (fun rest => l.season :: rest)

/-- Shallow embedding of `fetchLeagueHistoryMap`: `initial` stands for the
result of the starting `fetchLeagueData(leagueName, username)` call.  The
success flag of the walk is ignored, exactly as in the source (the `success`
variable is unused there). -/
def fetchLeagueHistoryMap (env : String → Option LeagueSnapshot)
    (fuel : Nat) (initial : Option LeagueSnapshot) : Option HistMap :=
  match initial with
  | none => none
  | some l => some (chainLeagueHistory env fuel l []).2

theorem hasKey_recordSet (m : HistMap) (k k2 : String) (v : LeagueHistoryEntry) :
    hasKey (recordSet m k v) k2 = true ↔ hasKey m k2 = true ∨ k2 = k := by
  induction m with
  | nil =>
    simp only [recordSet, hasKey, List.any_nil, List.any_cons, Bool.or_false,
      beq_iff_eq]
    constructor
    · intro h
      exact Or.inr h.symm
    · rintro (h | h)
      · exact absurd h (by simp)
      · exact h.symm
  | cons kv rest ih =>
    by_cases h : kv.1 = k
    · rw [recordSet, if_pos h]
      simp only [hasKey, List.any_cons, Bool.or_eq_true, beq_iff_eq, h]
      constructor
      · intro hx
        exact Or.inl hx
      · rintro (hx | hx)
        · exact hx
        · exact Or.inl hx.symm
    · rw [recordSet, if_neg h]
      simp only [hasKey, List.any_cons, Bool.or_eq_true] at ih ⊢
      rw [ih]
      tauto

theorem mem_keys_recordSet (m : HistMap) (k : String) (v : LeagueHistoryEntry)
    (a : String) :
    a ∈ (recordSet m k v).map Prod.fst ↔ a ∈ m.map Prod.fst ∨ a = k := by
  induction m with
  | nil => simp [recordSet, eq_comm]
  | cons kv rest ih =>
    by_cases h : kv.1 = k
    · subst h
      simp [recordSet]
      tauto
    · simp [recordSet, if_neg h, ih]
      tauto

theorem nodup_keys_recordSet (m : HistMap) (k : String) (v : LeagueHistoryEntry)
    (h : (m.map Prod.fst).Nodup) : ((recordSet m k v).map Prod.fst).Nodup := by
  induction m with
  | nil => simp [recordSet]
  | cons kv rest ih =>
    rw [List.map_cons, List.nodup_cons] at h
    by_cases hk : kv.1 = k
    · subst hk
      simpa [recordSet, List.nodup_cons] using h
    · rw [recordSet, if_neg hk, List.map_cons, List.nodup_cons]
      refine ⟨?_, ih h.2⟩
      rw [mem_keys_recordSet]
      rintro (hmem | heq)
      · exact h.1 hmem
      · exact hk heq

theorem chainLeagueHistory_succ_none (env : String → Option LeagueSnapshot)
    (fuel : Nat) (l : LeagueSnapshot) (m : HistMap)
    (h : truthyId l.previous_league_id = none) :
    chainLeagueHistory env (fuel + 1) l m =
      (true, recordSet m l.season ⟨l.league_id, l.name, l.status⟩) := by
  rw [chainLeagueHistory, h]

theorem chainLeagueHistory_succ_fail (env : String → Option LeagueSnapshot)
    (fuel : Nat) (l : LeagueSnapshot) (m : HistMap) (pid : String)
    (h1 : truthyId l.previous_league_id = some pid) (h2 : env pid = none) :
    chainLeagueHistory env (fuel + 1) l m =
      (false, recordSet m l.season ⟨l.league_id, l.name, l.status⟩) := by
  simp [chainLeagueHistory, h1, h2]

theorem chainLeagueHistory_succ_step (env : String → Option LeagueSnapshot)
    (fuel : Nat) (l : LeagueSnapshot) (m : HistMap) (pid : String)
    (l2 : LeagueSnapshot)
    (h1 : truthyId l.previous_league_id = some pid) (h2 : env pid = some l2) :
    chainLeagueHistory env (fuel + 1) l m =
      chainLeagueHistory env fuel l2
        (recordSet m l.season ⟨l.league_id, l.name, l.status⟩) := by
  simp [chainLeagueHistory, h1, h2]

theorem chainSeasons_succ_none (env : String → Option LeagueSnapshot)
    (fuel : Nat) (l : LeagueSnapshot)
    (h : truthyId l.previous_league_id = none) :
    chainSeasons env (fuel + 1) l = [l.season] := by
  rw [chainSeasons, h]

theorem chainSeasons_succ_fail (env : String → Option LeagueSnapshot)
    (fuel : Nat) (l : LeagueSnapshot) (pid : String)
    (h1 : truthyId l.previous_league_id = some pid) (h2 : env pid = none) :
    chainSeasons env (fuel + 1) l = [l.season] := by
  simp [chainSeasons, h1, h2]

theorem chainSeasons_succ_step (env : String → Option LeagueSnapshot)
    (fuel : Nat) (l : LeagueSnapshot) (pid : String) (l2 : LeagueSnapshot)
    (h1 : truthyId l.previous_league_id = some pid) (h2 : env pid = some l2) :
    chainSeasons env (fuel + 1) l = l.season :: chainSeasons env fuel l2 := by
  simp [chainSeasons, h1, h2]

theorem reachableSeasons_succ_none (env : String → Option LeagueSnapshot)
    (fuel : Nat) (l : LeagueSnapshot)
    (h : truthyId l.previous_league_id = none) :
    reachableSeasons env (fuel + 1) l = some [l.season] := by
  rw [reachableSeasons, h]

theorem reachableSeasons_succ_step (env : String → Option LeagueSnapshot)
    (fuel : Nat) (l : LeagueSnapshot) (pid : String) (l2 : LeagueSnapshot)
    (h1 : truthyId l.previous_league_id = some pid) (h2 : env pid = some l2) :
    reachableSeasons env (fuel + 1) l =
      (reachableSeasons env fuel l2).map (fun rest => l.season :: rest) := by
  simp [reachableSeasons, h1, h2]

theorem chainLeagueHistory_hasKey (env : String → Option LeagueSnapshot) :
    ∀ (fuel : Nat) (l : LeagueSnapshot) (m : HistMap) (s : String),
      hasKey (chainLeagueHistory env fuel l m).2 s = true ↔
        hasKey m s = true ∨ s ∈ chainSeasons env fuel l := by
  intro fuel
  induction fuel with
  | zero =>
    intro l m s
    simp [chainLeagueHistory, chainSeasons]
  | succ fuel ih =>
    intro l m s
    cases htr : truthyId l.previous_league_id with
    | none =>
      rw [chainLeagueHistory_succ_none env fuel l m htr,
        chainSeasons_succ_none env fuel l htr]
      rw [hasKey_recordSet]
      simp
    | some pid =>
      cases henv : env pid with
      | none =>
        rw [chainLeagueHistory_succ_fail env fuel l m pid htr henv,
          chainSeasons_succ_fail env fuel l pid htr henv]
        rw [hasKey_recordSet]
        simp
      | some l2 =>
        rw [chainLeagueHistory_succ_step env fuel l m pid l2 htr henv,
          chainSeasons_succ_step env fuel l pid l2 htr henv]
        rw [ih l2 (recordSet m l.season ⟨l.league_id, l.name, l.status⟩) s,
          hasKey_recordSet, List.mem_cons]
        tauto

theorem chainLeagueHistory_nodup (env : String → Option LeagueSnapshot) :
    ∀ (fuel : Nat) (l : LeagueSnapshot) (m : HistMap),
      (m.map Prod.fst).Nodup →
      ((chainLeagueHistory env fuel l m).2.map Prod.fst).Nodup := by
  intro fuel
  induction fuel with
  | zero =>
    intro l m h
    simpa [chainLeagueHistory] using h
  | succ fuel ih =>
    intro l m h
    have h2 := nodup_keys_recordSet m l.season ⟨l.league_id, l.name, l.status⟩ h
    cases htr : truthyId l.previous_league_id with
    | none =>
      rw [chainLeagueHistory_succ_none env fuel l m htr]
      exact h2
    | some pid =>
      cases henv : env pid with
      | none =>
        rw [chainLeagueHistory_succ_fail env fuel l m pid htr henv]
        exact h2
      | some l2 =>
        rw [chainLeagueHistory_succ_step env fuel l m pid l2 htr henv]
        exact ih l2 _ h2

theorem chainLeagueHistory_flag_reachable (env : String → Option LeagueSnapshot) :
    ∀ (fuel : Nat) (l : LeagueSnapshot) (m : HistMap),
      (chainLeagueHistory env fuel l m).1 = true →
      reachableSeasons env fuel l = some (chainSeasons env fuel l) := by
  intro fuel
  induction fuel with
  | zero =>
    intro l m h
    simp [chainLeagueHistory] at h
  | succ fuel ih =>
    intro l m h
    cases htr : truthyId l.previous_league_id with
    | none =>
      rw [reachableSeasons_succ_none env fuel l htr,
        chainSeasons_succ_none env fuel l htr]
    | some pid =>
      cases henv : env pid with
      | none =>
        rw [chainLeagueHistory_succ_fail env fuel l m pid htr henv] at h
        simp at h
      | some l2 =>
        rw [chainLeagueHistory_succ_step env fuel l m pid l2 htr henv] at h
        rw [reachableSeasons_succ_step env fuel l pid l2 htr henv,
          chainSeasons_succ_step env fuel l pid l2 htr henv, ih l2 _ h]
        rfl

/-- C5: when the starting league fetch succeeds, `fetchLeagueHistoryMap`
returns the walk's accumulated map (never `null`), and that map has an entry
for every season the walk recorded — in particular, everything recorded before
a failing intermediate fetch is retained rather than discarded. -/
theorem fetchLeagueHistoryMap_preserves_entries (env : String → Option LeagueSnapshot)
    (fuel : Nat) (l : LeagueSnapshot) :
    fetchLeagueHistoryMap env fuel (some l) =
      some (chainLeagueHistory env fuel l []).2
    ∧ ∀ s ∈ chainSeasons env fuel l,
        hasKey (chainLeagueHistory env fuel l []).2 s = true := by
  refine ⟨rfl, ?_⟩
  intro s hs
  rw [chainLeagueHistory_hasKey env fuel l [] s]
  exact Or.inr hs

/-- C6: one chain walk never records two entries for the same season label,
and whenever the walk's success flag is true (every fetch succeeded and the
pointer chain ended within fuel) the keys of the produced map are exactly the
seasons reachable by following `previous_league_id` from the starting
snapshot. -/
theorem chainLeagueHistory_keys_spec (env : String → Option LeagueSnapshot)
    (fuel : Nat) (l : LeagueSnapshot) :
    ((chainLeagueHistory env fuel l []).2.map Prod.fst).Nodup
    ∧ ((chainLeagueHistory env fuel l []).1 = true →
        reachableSeasons env fuel l = some (chainSeasons env fuel l)
        ∧ ∀ s : String,
            hasKey (chainLeagueHistory env fuel l []).2 s = true ↔
              s ∈ chainSeasons env fuel l) := by
  refine ⟨chainLeagueHistory_nodup env fuel l [] (by simp), ?_⟩
  intro hflag
  refine ⟨chainLeagueHistory_flag_reachable env fuel l [] hflag, ?_⟩
  intro s
  rw [chainLeagueHistory_hasKey env fuel l [] s]
  simp [hasKey]

/-- Concrete three-league chain whose deepest fetch fails, for the C5 witness. -/
def exampleLeagueA : LeagueSnapshot := ⟨"A", "My League", "2024", .in_season, some "B"⟩

def exampleLeagueB : LeagueSnapshot := ⟨"B", "My League", "2023", .complete, some "C"⟩

def exampleChainEnv : String → Option LeagueSnapshot :=
  fun id => if id = "B" then some exampleLeagueB else none

/-- C5 witness: on the concrete chain the fetch of league "C" fails (the walk's
flag is false), yet the returned map is non-null and retains the entries for
both seasons recorded before the failure. -/
theorem fetchLeagueHistoryMap_preserves_entries_witness :
    (chainLeagueHistory exampleChainEnv 5 exampleLeagueA []).1 = false
    ∧ fetchLeagueHistoryMap exampleChainEnv 5 (some exampleLeagueA) =
        some (chainLeagueHistory exampleChainEnv 5 exampleLeagueA []).2
    ∧ hasKey (chainLeagueHistory exampleChainEnv 5 exampleLeagueA []).2 "2024" = true
    ∧ hasKey (chainLeagueHistory exampleChainEnv 5 exampleLeagueA []).2 "2023" = true := by
  refine ⟨by decide, (fetchLeagueHistoryMap_preserves_entries exampleChainEnv 5 exampleLeagueA).1,
    (fetchLeagueHistoryMap_preserves_entries exampleChainEnv 5 exampleLeagueA).2 "2024" (by decide),
    (fetchLeagueHistoryMap_preserves_entries exampleChainEnv 5 exampleLeagueA).2 "2023" (by decide)⟩

/-- Concrete fully-resolvable two-league chain for the C6 witness. -/
def exampleLeagueB2 : LeagueSnapshot := ⟨"B", "My League", "2023", .complete, none⟩

def exampleChainEnv2 : String → Option LeagueSnapshot :=
  fun id => if id = "B" then some exampleLeagueB2 else none

/-- C6 witness: on the concrete successful chain the reachable seasons are
exactly ["2024", "2023"] and the produced map has a key for season "2023". -/
theorem chainLeagueHistory_keys_spec_witness :
    reachableSeasons exampleChainEnv2 5 exampleLeagueA = some ["2024", "2023"]
    ∧ hasKey (chainLeagueHistory exampleChainEnv2 5 exampleLeagueA []).2 "2023" = true := by
  have h := chainLeagueHistory_keys_spec exampleChainEnv2 5 exampleLeagueA
  have h2 := h.2 (by decide)
  constructor
  · rw [h2.1]
    decide
  · exact (h2.2 "2023").mpr (by decide)

/-! ## MultiYearDispatcher: `processLeagueDataByYear` (src/src/index.ts, lines 42-118) -/

structure ToolResult where
  text : String
  isError : Bool
deriving DecidableEq, Repr

/-- The JS `leagueHistoryMap[currYear].leagueId`; the dispatcher only looks up
years drawn from the map's own keys, so the `""` default is unreachable on the
paths the claims quantify over. -/
def lookupLeagueId (m : HistMap) (year : String) : String :=
  ((m.find? (fun kv => kv.1 == year)).map (fun kv => kv.2.leagueId)).getD ""

/-- The `for (const currYear of yearsToProcess)` loop pushing one processor
result per season, in iteration order. -/
def runSeasonLoop (processor : String → String → String) (m : HistMap) :
    List String → List String → List String
  | [], acc => acc
  | y :: rest, acc =>
    runSeasonLoop processor m rest (acc ++ [processor y (lookupLeagueId m y)])

/-- JS default `Array.prototype.sort()` on the key list of the error message:
lexicographic string order. -/
def sortKeysLex (ys : List String) : List String :=
  List.insertionSort (fun a b => jsStrLt b.data a.data = false) ys

/-- Shallow embedding of `processLeagueDataByYear`.  The processor stands for
`processor(username, leagueName, currYear, leagueId, ...processorArgs)` with
everything but the season and league id held fixed; `histMap` stands for the
result of `fetchLeagueHistoryMap`. -/
def processLeagueDataByYear (histMap : Option HistMap) (year : Option String)
    (processor : String → String → String) (title : String)
    (leagueName username : String) : ToolResult :=
  match histMap with
  | none =>
    ⟨"Could not find the data for league: " ++ leagueName ++ " and username: " ++
      username ++ ". Ensure username and league name are valid", true⟩
  | some m =>
    let availableYears := m.map Prod.fst
    let parsed := parseYearParameter year availableYears
    if parsed.yearsToProcess.isEmpty then
      ⟨"No league data found for the specified year(s): " ++
        (match year with | none => "undefined" | some s => s) ++
        ". This league's history includes years: " ++
        joinSep ", " (sortKeysLex availableYears), true⟩
    else
      let resultsByYear := runSeasonLoop processor m parsed.yearsToProcess []
      let output1 := joinSep "\n\n" resultsByYear
      let output2 :=
        if parsed.yearsToProcess.length < parsed.requestedYears.length then
          output1 ++ ("\n\nNote: No data found for year(s): " ++
            joinSep ", "
              (parsed.requestedYears.filter
                (fun y => ! parsed.yearsToProcess.contains y)))
        else output1
      let output3 := if title ≠ "" then title ++ (":\n\n" ++ output2) else output2
      ⟨output3, false⟩

theorem runSeasonLoop_eq_map (processor : String → String → String) (m : HistMap) :
    ∀ (ys acc : List String),
      runSeasonLoop processor m ys acc =
        acc ++ ys.map (fun y => processor y (lookupLeagueId m y)) := by
  intro ys
  induction ys with
  | nil => intro acc; simp [runSeasonLoop]
  | cons y rest ih =>
    intro acc
    rw [runSeasonLoop, ih]
    simp

/-- C7: with a resolved history map and a non-empty `yearsToProcess`, the
dispatcher's loop produces exactly one processor invocation per season of
`yearsToProcess`, in the list's order; the returned tool result is not an
error; its text is the title prefix, the per-season results joined in that
same order, and — exactly when `yearsToProcess` is shorter than
`requestedYears` — a note listing the requested-but-missing years, which are
precisely the requested years not in `yearsToProcess`. -/
theorem processLeagueDataByYear_spec (m : HistMap) (year : Option String)
    (processor : String → String → String) (title : String)
    (leagueName username : String)
    (hne : (parseYearParameter year (m.map Prod.fst)).yearsToProcess ≠ []) :
    runSeasonLoop processor m
        (parseYearParameter year (m.map Prod.fst)).yearsToProcess [] =
      (parseYearParameter year (m.map Prod.fst)).yearsToProcess.map
        (fun y => processor y (lookupLeagueId m y))
    ∧ (processLeagueDataByYear (some m) year processor title leagueName
        username).isError = false
    ∧ (processLeagueDataByYear (some m) year processor title leagueName
        username).text =
        (if title ≠ "" then
          title ++ (":\n\n" ++
            (if (parseYearParameter year (m.map Prod.fst)).yearsToProcess.length <
                (parseYearParameter year (m.map Prod.fst)).requestedYears.length then
              joinSep "\n\n"
                ((parseYearParameter year (m.map Prod.fst)).yearsToProcess.map
                  (fun y => processor y (lookupLeagueId m y))) ++
                ("\n\nNote: No data found for year(s): " ++
                  joinSep ", "
                    ((parseYearParameter year (m.map Prod.fst)).requestedYears.filter
                      (fun y => ! (parseYearParameter year
                        (m.map Prod.fst)).yearsToProcess.contains y)))
            else
              joinSep "\n\n"
                ((parseYearParameter year (m.map Prod.fst)).yearsToProcess.map
                  (fun y => processor y (lookupLeagueId m y)))))
        else
          (if (parseYearParameter year (m.map Prod.fst)).yearsToProcess.length <
              (parseYearParameter year (m.map Prod.fst)).requestedYears.length then
            joinSep "\n\n"
              ((parseYearParameter year (m.map Prod.fst)).yearsToProcess.map
                (fun y => processor y (lookupLeagueId m y))) ++
              ("\n\nNote: No data found for year(s): " ++
                joinSep ", "
                  ((parseYearParameter year (m.map Prod.fst)).requestedYears.filter
                    (fun y => ! (parseYearParameter year
                      (m.map Prod.fst)).yearsToProcess.contains y)))
          else
            joinSep "\n\n"
              ((parseYearParameter year (m.map Prod.fst)).yearsToProcess.map
                (fun y => processor y (lookupLeagueId m y)))))
    ∧ (∀ y : String,
        y ∈ (parseYearParameter year (m.map Prod.fst)).requestedYears.filter
            (fun t => ! (parseYearParameter year (m.map Prod.fst)).yearsToProcess.contains t) ↔
          (y ∈ (parseYearParameter year (m.map Prod.fst)).requestedYears ∧
            ¬ y ∈ (parseYearParameter year (m.map Prod.fst)).yearsToProcess)) := by
  have hloop := runSeasonLoop_eq_map processor m
    (parseYearParameter year (m.map Prod.fst)).yearsToProcess []
  rw [List.nil_append] at hloop
  have hempty : (parseYearParameter year (m.map Prod.fst)).yearsToProcess.isEmpty = false := by
    cases hl : (parseYearParameter year (m.map Prod.fst)).yearsToProcess with
    | nil => exact absurd hl hne
    | cons a rest => simp [List.isEmpty]
  refine ⟨hloop, ?_, ?_, ?_⟩
  · simp only [processLeagueDataByYear, hempty]
    rfl
  · simp only [processLeagueDataByYear, hempty, Bool.false_eq_true, if_false, hloop]
  · intro y
    rw [List.mem_filter]
    constructor
    · rintro ⟨h1, h2⟩
      refine ⟨h1, ?_⟩
      intro hcontra
      have hc := (contains_iff_mem _ y).mpr hcontra
      rw [Bool.not_eq_eq_eq_not, Bool.not_true] at h2
      rw [h2] at hc
      exact Bool.false_ne_true hc
    · rintro ⟨h1, h2⟩
      refine ⟨h1, ?_⟩
      rw [Bool.not_eq_eq_eq_not, Bool.not_true]
      cases hc : (parseYearParameter year (m.map Prod.fst)).yearsToProcess.contains y
      · rfl
      · exact absurd ((contains_iff_mem _ y).mp hc) h2

/-- Concrete history map and processor for the C7 witness. -/
def exampleHistMap : HistMap :=
  [("2024", ⟨"A", "My League", .in_season⟩), ("2023", ⟨"B", "My League", .complete⟩)]

def exampleProcessor : String → String → String :=
  fun y lid => "Year " ++ y ++ " league " ++ lid

/-- C7 witness: dispatching "2022-2024" over a map with seasons 2023-2024
succeeds, and 2022 is a requested-but-missing year reported by the note. -/
theorem processLeagueDataByYear_spec_witness :
    (processLeagueDataByYear (some exampleHistMap) (some "2022-2024")
        exampleProcessor "T" "My League" "user").isError = false
    ∧ ("2022" ∈ (parseYearParameter (some "2022-2024")
          (exampleHistMap.map Prod.fst)).requestedYears
        ∧ ¬ "2022" ∈ (parseYearParameter (some "2022-2024")
          (exampleHistMap.map Prod.fst)).yearsToProcess) := by
  have h := processLeagueDataByYear_spec exampleHistMap (some "2022-2024")
    exampleProcessor "T" "My League" "user" (by decide)
  exact ⟨h.2.1, (h.2.2.2 "2022").mp (by decide)⟩

/-! ## PlayoffBracketBuilder: `buildBracket` (src/unnamed/part_000, lines 834-880) -/

structure BracketRef where
  w : Option Nat
  l : Option Nat
deriving DecidableEq, Repr

structure PlayoffMatchup where
  r : Nat
  m : Nat
  t1 : Option Nat
  t2 : Option Nat
  w : Option Nat
  l : Option Nat
  t1_from : Option BracketRef
  t2_from : Option BracketRef
  p : Option Nat
deriving DecidableEq, Repr

/-- The slice of an enhanced roster that `buildBracket` reads. -/
structure EnhancedRoster where
  roster_id : Nat
  ownerNames : List String
  ownerIds : List String
deriving DecidableEq, Repr

structure TeamIdent where
  rosterId : Nat
  ownerNames : List String
  ownerIds : List String
deriving DecidableEq, Repr

structure BracketNode where
  round : Nat
  matchupId : Nat
  team1 : Option TeamIdent
  team2 : Option TeamIdent
  winner : Option TeamIdent
  loser : Option TeamIdent
  isCompleted : Bool
  team1From : Option BracketRef
  team2From : Option BracketRef
deriving DecidableEq, Repr

inductive PlayoffStatus where
  | completed
  | in_progress
  | not_started
deriving DecidableEq, Repr

/-- The `rosterMap.get(rid)` lookup (roster ids are unique within a league). -/
def rosterLookup (rosters : List EnhancedRoster) (rid : Nat) : Option TeamIdent :=
  (rosters.find? (fun r => r.roster_id == rid)).map
    (fun r => ⟨r.roster_id, r.ownerNames, r.ownerIds⟩)

/-- JS truthiness of a possibly-absent number (`null`, `undefined`, `0` falsy). -/
def truthyNat : Option Nat → Bool
  | none => false
  | some n => !(n == 0)

/-- Embeds `matchup.w ? rosterMap.get(matchup.w) : null` (same shape for the loser). -/
def winnerLookup (rosters : List EnhancedRoster) (o : Option Nat) : Option TeamIdent :=
  match o with
  | none => none
  | some rid => if rid = 0 then none else rosterLookup rosters rid

/-- Truthiness of `matchup?.tN_from?.w`. -/
def refWTruthy : Option BracketRef → Bool
  | none => false
  | some ref => truthyNat ref.w

/-- Truthiness of `!matchup.p`. -/
def pFalsy : Option Nat → Bool
  | none => true
  | some n => n == 0

/-- The championship-path filter of `buildBracket`. -/
def championshipPath (bracketData : List PlayoffMatchup) : List PlayoffMatchup :=
  bracketData.filter (fun mu =>
    mu.r == 1 || mu.p == some 1 ||
      (pFalsy mu.p && (refWTruthy mu.t1_from || refWTruthy mu.t2_from)))

/-- The node `buildBracket` pushes for one surviving edge. -/
def mkBracketNode (rosters : List EnhancedRoster) (mu : PlayoffMatchup) :
    BracketNode :=
  ⟨mu.r, mu.m, mu.t1.bind (rosterLookup rosters), mu.t2.bind (rosterLookup rosters),
    winnerLookup rosters mu.w, winnerLookup rosters mu.l,
    truthyNat mu.w, mu.t1_from, mu.t2_from⟩

/-- A `Record<number, BracketNode[]>` (the claims below never depend on the JS
ascending-integer-key iteration order, only on per-round lookups and the key
count, which agree with this insertion-ordered model). -/
abbrev BracketByRound := List (Nat × List BracketNode)

/-- Embeds `if (!acc[r]) acc[r] = []; acc[r].push(node)`. -/
def pushRound (acc : BracketByRound) (r : Nat) (node : BracketNode) :
    BracketByRound :=
  if acc.any (fun kv => kv.1 == r) then
    acc.map (fun kv => if kv.1 == r then (kv.1, kv.2 ++ [node]) else kv)
  else acc ++ [(r, [node])]

structure BracketResult where
  bracketByRound : BracketByRound
  totalRounds : Option Nat
  playoffStatus : PlayoffStatus
deriving DecidableEq, Repr

/-- Shallow embedding of `buildBracket`. -/
def buildBracket (bracketData : List PlayoffMatchup)
    (rosters : List EnhancedRoster) (playoffStatus : PlayoffStatus) :
    BracketResult :=
  let bracketByRound := (championshipPath bracketData).foldl
    (fun acc mu => pushRound acc mu.r (mkBracketNode rosters mu)) []
  ⟨bracketByRound, some bracketByRound.length, playoffStatus⟩

/-- Per-round lookup `bracketByRound[r]`. -/
def roundNodes (b : BracketByRound) (r : Nat) : List BracketNode :=
  ((b.find? (fun kv => kv.1 == r)).map (fun kv => kv.2)).getD []

theorem mem_pushRound (acc : BracketByRound) (r : Nat) (node : BracketNode)
    (Q : Nat → BracketNode → Prop)
    (hacc : ∀ rn ∈ acc, ∀ n2 ∈ rn.2, Q rn.1 n2) (hnode : Q r node) :
    ∀ rn ∈ pushRound acc r node, ∀ n2 ∈ rn.2, Q rn.1 n2 := by
  unfold pushRound
  by_cases h : acc.any (fun kv => kv.1 == r)
  · rw [if_pos h]
    intro rn hrn n2 hn2
    rw [List.mem_map] at hrn
    obtain ⟨kv, hkv, heq⟩ := hrn
    by_cases hk : kv.1 = r
    · rw [if_pos (by simpa using hk)] at heq
      subst heq
      rcases List.mem_append.mp hn2 with h2 | h2
      · exact hacc kv hkv n2 h2
      · have hn : n2 = node := by simpa using h2
        subst hn
        show Q kv.1 n2
        rw [hk]
        exact hnode
    · rw [if_neg (by simpa using hk)] at heq
      subst heq
      exact hacc kv hkv n2 hn2
  · rw [if_neg h]
    intro rn hrn n2 hn2
    rcases List.mem_append.mp hrn with h2 | h2
    · exact hacc rn h2 n2 hn2
    · have hr : rn = (r, [node]) := by simpa using h2
      subst hr
      have hn : n2 = node := by simpa using hn2
      subst hn
      exact hnode

theorem foldl_pushRound_mem (rosters : List EnhancedRoster)
    (Q : Nat → BracketNode → Prop) :
    ∀ (mus : List PlayoffMatchup) (acc : BracketByRound),
      (∀ rn ∈ acc, ∀ n2 ∈ rn.2, Q rn.1 n2) →
      (∀ mu ∈ mus, Q mu.r (mkBracketNode rosters mu)) →
      ∀ rn ∈ mus.foldl
          (fun a mu => pushRound a mu.r (mkBracketNode rosters mu)) acc,
        ∀ n2 ∈ rn.2, Q rn.1 n2 := by
  intro mus
  induction mus with
  | nil =>
    intro acc hacc _
    simpa using hacc
  | cons mu rest ih =>
    intro acc hacc hmus
    rw [List.foldl_cons]
    exact ih (pushRound acc mu.r (mkBracketNode rosters mu))
      (mem_pushRound acc mu.r (mkBracketNode rosters mu) Q hacc
        (hmus mu (List.mem_cons_self mu rest)))
      (fun mu2 hmu2 => hmus mu2 (List.mem_cons_of_mem mu hmu2))

/-- Edges of the three-edge example in §8 of the spec. -/
def exampleEdges : List PlayoffMatchup :=
  [⟨1, 1, some 1, some 2, some 1, some 2, none, none, none⟩,
   ⟨1, 2, some 3, some 4, some 4, some 3, none, none, none⟩,
   ⟨2, 3, none, none, none, none, some ⟨some 1, none⟩, some ⟨some 2, none⟩, none⟩]

def exampleRosters : List EnhancedRoster :=
  [⟨1, ["u1"], ["i1"]⟩, ⟨2, ["u2"], ["i2"]⟩, ⟨3, ["u3"], ["i3"]⟩, ⟨4, ["u4"], ["i4"]⟩]

/-- Upstream-inconsistent edge for the C9 counterexample: a round-1 edge that
carries winner 4 while its `t1` slot is absent (part_000:858-868 builds its
node without enforcing any winner/slot connection). -/
def inconsistentEdge : PlayoffMatchup :=
  ⟨1, 1, none, some 4, some 4, none, none, none, none⟩

/-- C9 counterexample: the inconsistent edge is kept on the championship path
(it is a round-1 edge), and the node `buildBracket` produces for it has a
non-null, resolved winner while its `team1` slot is unresolved — refuting the
claimed invariant that every kept edge's node with a non-null winner has both
team slots resolved to team identities. -/
theorem buildBracket_winner_slot_counterexample :
    championshipPath [inconsistentEdge] = [inconsistentEdge]
    ∧ roundNodes (buildBracket [inconsistentEdge] exampleRosters
          PlayoffStatus.in_progress).bracketByRound 1 =
        [mkBracketNode exampleRosters inconsistentEdge]
    ∧ (mkBracketNode exampleRosters inconsistentEdge).winner =
        some ⟨4, ["u4"], ["i4"]⟩
    ∧ (mkBracketNode exampleRosters inconsistentEdge).team1 = none
    ∧ ¬ ((mkBracketNode exampleRosters inconsistentEdge).winner ≠ none →
        (mkBracketNode exampleRosters inconsistentEdge).team1 ≠ none ∧
          (mkBracketNode exampleRosters inconsistentEdge).team2 ≠ none) := by
  decide

/-- C9 (amended): every node the builder groups into `bracketByRound` is the
node of a championship-path edge of its round; a node's `isCompleted` is true
iff its edge carries a (non-zero) winner id; a team slot resolves to a team
identity whenever the edge carries that team id and it resolves in the roster
map — so a node with a non-null winner has both slots resolved only provided
the edge's team ids are present and resolvable, and upstream data violating
this yields a winner next to an unresolved slot, tolerated rather than
prevented; the advancement hints are carried through unchanged, and an absent
team id leaves the team slot undetermined; and on the three-edge example of
§8 the round-2 node has both slots unresolved, hints "winner of game 1" /
"winner of game 2", and `isCompleted = false`. -/
theorem buildBracket_node_spec (bracketData : List PlayoffMatchup)
    (rosters : List EnhancedRoster) (ps : PlayoffStatus) :
    (∀ rn ∈ (buildBracket bracketData rosters ps).bracketByRound, ∀ node ∈ rn.2,
        ∃ mu, mu ∈ championshipPath bracketData ∧ mu.r = rn.1 ∧
          node = mkBracketNode rosters mu)
    ∧ (∀ mu : PlayoffMatchup,
        ((mkBracketNode rosters mu).isCompleted = true ↔
          (mu.w ≠ none ∧ mu.w ≠ some 0)))
    ∧ (∀ (mu : PlayoffMatchup) (t1id t2id : Nat) (team1 team2 : TeamIdent),
        mu.t1 = some t1id → rosterLookup rosters t1id = some team1 →
        mu.t2 = some t2id → rosterLookup rosters t2id = some team2 →
        (mkBracketNode rosters mu).team1 = some team1 ∧
          (mkBracketNode rosters mu).team2 = some team2)
    ∧ (∀ mu : PlayoffMatchup,
        (mkBracketNode rosters mu).team1From = mu.t1_from ∧
        (mkBracketNode rosters mu).team2From = mu.t2_from ∧
        (mu.t1 = none → (mkBracketNode rosters mu).team1 = none) ∧
        (mu.t2 = none → (mkBracketNode rosters mu).team2 = none))
    ∧ roundNodes (buildBracket exampleEdges exampleRosters
          PlayoffStatus.completed).bracketByRound 2 =
        [⟨2, 3, none, none, none, none, false,
          some ⟨some 1, none⟩, some ⟨some 2, none⟩⟩] := by
  refine ⟨?_, ?_, ?_, ?_, by decide⟩
  · have hfold := foldl_pushRound_mem rosters
      (fun r node => ∃ mu, mu ∈ championshipPath bracketData ∧ mu.r = r ∧
        node = mkBracketNode rosters mu)
      (championshipPath bracketData) []
      (by intro rn hrn; simp at hrn)
      (by
        intro mu hmu
        exact ⟨mu, hmu, rfl, rfl⟩)
    exact hfold
  · intro mu
    cases hw : mu.w with
    | none => simp [mkBracketNode, truthyNat, hw]
    | some n =>
      by_cases hn : n = 0
      · subst hn
        simp [mkBracketNode, truthyNat, hw]
      · simp [mkBracketNode, truthyNat, hw, hn]
  · intro mu t1id t2id team1 team2 ht1 hl1 ht2 hl2
    constructor
    · show mu.t1.bind (rosterLookup rosters) = some team1
      rw [ht1]
      exact hl1
    · show mu.t2.bind (rosterLookup rosters) = some team2
      rw [ht2]
      exact hl2
  · intro mu
    refine ⟨rfl, rfl, ?_, ?_⟩
    · intro h
      show mu.t1.bind (rosterLookup rosters) = none
      rw [h]
      rfl
    · intro h
      show mu.t2.bind (rosterLookup rosters) = none
      rw [h]
      rfl

/-- C9 witness: the slot-resolution clause of the amended claim instantiated
at the completed round-1 edge of the example, whose two team slots resolve to
rosters 1 and 2. -/
theorem buildBracket_node_spec_witness :
    (mkBracketNode exampleRosters
        ⟨1, 1, some 1, some 2, some 1, some 2, none, none, none⟩).team1 =
      some ⟨1, ["u1"], ["i1"]⟩
    ∧ (mkBracketNode exampleRosters
        ⟨1, 1, some 1, some 2, some 1, some 2, none, none, none⟩).team2 =
      some ⟨2, ["u2"], ["i2"]⟩ :=
  (buildBracket_node_spec exampleEdges exampleRosters PlayoffStatus.completed).2.2.1
    ⟨1, 1, some 1, some 2, some 1, some 2, none, none, none⟩ 1 2
    ⟨1, ["u1"], ["i1"]⟩ ⟨2, ["u2"], ["i2"]⟩
    (by decide) (by decide) (by decide) (by decide)

/-! ## `fetchLeaguePlayoffBracket` (src/src/utils/api.ts, lines 985-1016) -/

structure LeagueSettingsLite where
  playoff_week_start : Nat
  playoff_teams : Nat
  playoff_round_type : Nat
deriving DecidableEq, Repr

structure LeagueData where
  status : Status
  settings : LeagueSettingsLite
deriving DecidableEq, Repr

/-- The `playoffWeekStart` component of `fetchLeaguePlayoffSchedule`, the only
part `fetchLeaguePlayoffBracket` reads: the schedule call refetches the league
(`schedLeague`) and surfaces `settings.playoff_week_start`, or `null` when
that fetch fails. -/
def fetchPlayoffWeekStart (schedLeague : Option LeagueData) : Option Nat :=
  schedLeague.map (fun l => l.settings.playoff_week_start)

/-- The literal short-circuit value `{ bracketByRound: {}, playoffStatus:
"not_started" }`; it carries no `totalRounds` field, unlike every value
`buildBracket` produces. -/
def notStartedBracket : BracketResult := ⟨[], none, PlayoffStatus.not_started⟩

/-- Shallow embedding of `fetchLeaguePlayoffBracket`; each `Option` argument
is the oracle result of the corresponding fetch. -/
def fetchLeaguePlayoffBracket (bracketData : Option (List PlayoffMatchup))
    (rosters : Option (List EnhancedRoster)) (leagueData : Option LeagueData)
    (nflCurrentWeek : Option Nat) (schedLeague : Option LeagueData) :
    Option BracketResult :=
  match bracketData, rosters, leagueData with
  | some bd, some rs, some ld =>
    if ld.status = Status.complete then
      some (buildBracket bd rs PlayoffStatus.completed)
    else
      match nflCurrentWeek, fetchPlayoffWeekStart schedLeague with
      | some currentWeek, some playoffWeekStart =>
        if currentWeek < playoffWeekStart then some notStartedBracket
        else some (buildBracket bd rs PlayoffStatus.in_progress)
      | _, _ => none
  | _, _, _ => none

/-- C8: for a league that is not complete, when the current NFL week is below
the configured playoff start week the function returns the literal empty
`not_started` result — which is never a `buildBracket` output, so the builder
is not invoked — and otherwise it returns the builder's result with status
`in_progress`; a complete league always gets the builder's result with status
`completed`. -/
theorem fetchLeaguePlayoffBracket_spec (bd : List PlayoffMatchup)
    (rs : List EnhancedRoster) (ld : LeagueData) (cw : Nat) (sl : LeagueData) :
    (ld.status ≠ Status.complete → cw < sl.settings.playoff_week_start →
      fetchLeaguePlayoffBracket (some bd) (some rs) (some ld) (some cw) (some sl) =
        some notStartedBracket
      ∧ notStartedBracket.bracketByRound = []
      ∧ notStartedBracket.playoffStatus = PlayoffStatus.not_started)
    ∧ (ld.status ≠ Status.complete → ¬ cw < sl.settings.playoff_week_start →
      fetchLeaguePlayoffBracket (some bd) (some rs) (some ld) (some cw) (some sl) =
        some (buildBracket bd rs PlayoffStatus.in_progress))
    ∧ (ld.status = Status.complete →
      fetchLeaguePlayoffBracket (some bd) (some rs) (some ld) (some cw) (some sl) =
        some (buildBracket bd rs PlayoffStatus.completed))
    ∧ (∀ (bd2 : List PlayoffMatchup) (rs2 : List EnhancedRoster)
        (ps2 : PlayoffStatus), notStartedBracket ≠ buildBracket bd2 rs2 ps2) := by
  refine ⟨?_, ?_, ?_, ?_⟩
  · intro hst hweek
    refine ⟨?_, rfl, rfl⟩
    simp [fetchLeaguePlayoffBracket, fetchPlayoffWeekStart, hst, hweek]
  · intro hst hweek
    simp [fetchLeaguePlayoffBracket, fetchPlayoffWeekStart, hst, hweek]
  · intro hst
    simp [fetchLeaguePlayoffBracket, hst]
  · intro bd2 rs2 ps2 hcontra
    have h1 : notStartedBracket.totalRounds = none := rfl
    have h2 : (buildBracket bd2 rs2 ps2).totalRounds =
        some (buildBracket bd2 rs2 ps2).bracketByRound.length := rfl
    rw [hcontra, h2] at h1
    exact Option.some_ne_none _ h1

/-- C8 witness: an in-season league with playoff start week 15 queried at NFL
week 10 short-circuits to the empty `not_started` bracket. -/
theorem fetchLeaguePlayoffBracket_spec_witness :
    fetchLeaguePlayoffBracket (some exampleEdges) (some exampleRosters)
        (some ⟨Status.in_season, ⟨15, 6, 0⟩⟩) (some 10)
        (some ⟨Status.in_season, ⟨15, 6, 0⟩⟩) =
      some notStartedBracket :=
  ((fetchLeaguePlayoffBracket_spec exampleEdges exampleRosters
      ⟨Status.in_season, ⟨15, 6, 0⟩⟩ 10 ⟨Status.in_season, ⟨15, 6, 0⟩⟩).1
    (by decide) (by decide)).1

/-! ## IdentityResolver: `fetchUserId`
(src/src/utils/api.ts, lines 183-190: the uncached resolver the current
server imports, and src/src/index.ts, lines 655-669: the legacy variant with
the module-level `userCache`). -/

structure UserRec where
  username : String
  user_id : String
deriving DecidableEq, Repr

/-- The api.ts `fetchUserId`: it calls `fetchUser`, which issues one upstream
request per call, and consults no cache.  The `Nat` component counts upstream
`makeRequest` calls. -/
def fetchUserIdApi (env : String → Option UserRec) (username : String) :
    Option String × Nat :=
  (match env username with
    | none => none
    | some u => some u.user_id, 1)

/-- Two successive api.ts calls with the same username; request counts add. -/
def fetchUserIdApiTwice (env : String → Option UserRec) (username : String) :
    Option String × Option String × Nat :=
  let r1 := fetchUserIdApi env username
  let r2 := fetchUserIdApi env username
  (r1.1, r2.1, r1.2 + r2.2)

/-- Embeds `userCache.set` / `leagueCache.set`. -/
def cacheSet : List (String × String) → String → String → List (String × String)
  | [], k, v => [(k, v)]
  | kv :: rest, k, v => if kv.1 = k then (k, v) :: rest else kv :: cacheSet rest k v

/-- The legacy index.ts `fetchUserId` with the module-level `userCache`: on a
hit (`if (cached) return cached`; a cached empty string is falsy and misses)
no upstream request is made; on a miss one request is made and a successful
result is cached.  Returns (result, new cache, upstream request count). -/
def fetchUserIdCached (env : String → Option UserRec) (username : String)
    (cache : List (String × String)) :
    Option String × List (String × String) × Nat :=
  match (cache.find? (fun kv => kv.1 == username)).map (fun kv => kv.2) with
  | some cached =>
    if cached = "" then
      match env username with
      | none => (none, cache, 1)
      | some u => (some u.user_id, cacheSet cache username u.user_id, 1)
    else (some cached, cache, 0)
  | none =>
    match env username with
    | none => (none, cache, 1)
    | some u => (some u.user_id, cacheSet cache username u.user_id, 1)

/-- Two successive legacy calls starting from an empty cache. -/
def fetchUserIdCachedTwice (env : String → Option UserRec) (username : String) :
    Option String × Option String × Nat :=
  let r1 := fetchUserIdCached env username []
  let r2 := fetchUserIdCached env username r1.2.1
  (r1.1, r2.1, r1.2.2 + r2.2.2)

def exampleUserEnv : String → Option UserRec :=
  fun u => if u = "alice" then some ⟨"alice", "42"⟩ else none

/-- C10 counterexample: the api.ts `fetchUserId` — the resolver the current
server imports — performs an upstream fetch on every call: two calls for
"alice" issue two upstream requests, refuting "the second call performs no
second upstream fetch" for the resolver in use. -/
theorem fetchUserId_memo_counterexample :
    (fetchUserIdApiTwice exampleUserEnv "alice").1 = some "42"
    ∧ (fetchUserIdApiTwice exampleUserEnv "alice").2.1 = some "42"
    ∧ (fetchUserIdApiTwice exampleUserEnv "alice").2.2 = 2
    ∧ ¬ (fetchUserIdApiTwice exampleUserEnv "alice").2.2 ≤ 1 := by decide

/-- C10 amended: both calls return the same user id in either implementation;
the api.ts resolver used by the current server issues one upstream request per
call (two in total), while the legacy cached resolver of index.ts issues a
single upstream request for the two calls (the second is a cache hit). -/
theorem fetchUserId_memo_amended (env : String → Option UserRec)
    (username : String) :
    ((fetchUserIdApiTwice env username).1 = (fetchUserIdApiTwice env username).2.1
      ∧ (fetchUserIdApiTwice env username).2.2 = 2)
    ∧ (∀ u : UserRec, env username = some u → u.user_id ≠ "" →
        (fetchUserIdCachedTwice env username).1 = some u.user_id
        ∧ (fetchUserIdCachedTwice env username).2.1 = some u.user_id
        ∧ (fetchUserIdCachedTwice env username).2.2 = 1) := by
  constructor
  · exact ⟨rfl, rfl⟩
  · intro u henv hne
    have h1 : fetchUserIdCached env username [] =
        (some u.user_id, [(username, u.user_id)], 1) := by
      unfold fetchUserIdCached
      simp [henv, cacheSet]
    have hfind : (List.find? (fun kv => kv.1 == username)
        [(username, u.user_id)]) = some (username, u.user_id) := by
      simp [List.find?]
    have h2 : fetchUserIdCached env username [(username, u.user_id)] =
        (some u.user_id, [(username, u.user_id)], 0) := by
      unfold fetchUserIdCached
      rw [hfind]
      simp [hne]
    unfold fetchUserIdCachedTwice
    rw [h1]
    simp only []
    rw [h2]
    exact ⟨trivial, rfl, rfl⟩

/-- C10 witness: for the concrete environment resolving "alice" to id "42",
the legacy cached resolver returns "42" from both calls with exactly one
upstream request. -/
theorem fetchUserId_memo_amended_witness :
    (fetchUserIdCachedTwice exampleUserEnv "alice").1 = some "42"
    ∧ (fetchUserIdCachedTwice exampleUserEnv "alice").2.1 = some "42"
    ∧ (fetchUserIdCachedTwice exampleUserEnv "alice").2.2 = 1 := by
  have h := (fetchUserId_memo_amended exampleUserEnv "alice").2 ⟨"alice", "42"⟩
    (by decide) (by decide)
  exact h

end SleeperMCP
